import Mathlib

/-!
# Verification of the `backoff` package (scnewma/backoff)

Shallow embedding of `backoff.go`:

* `time.Duration` is `Int` (nanoseconds; `int64` in Go — the configurations
  in the claims stay far below `2^63`, so overflow is not modelled).
* `float64` configuration values (`multiplier`, `jitterFactor`) and the
  value of `rand.Float64()` are modelled as exact rationals `ℚ`; Go's
  `time.Duration(f)` conversion truncates the float toward zero, embedded
  as `truncQ`.
* The push iterator returned by `Iter` is modelled as the list of delays
  produced when the consumer accepts up to `req` elements (`iterDelays`);
  the stream of `rand.Float64()` draws is a parameter `rs : Nat → ℚ`.
* `RetryWithContext` is modelled as a pure function over the stream of
  operation outcomes (`fn : Nat → α × Option RErr`, indexed by 0-based
  invocation number) and a per-wait cancellation oracle
  `cancelled : Nat → Bool` (`cancelled i = true` means the `select` at
  wait step `i` observes `ctx.Done()` first — covering both a context
  that is already cancelled when the wait starts and one that fires
  mid-wait).  Delay *values* do not influence the driver's control flow,
  only its real-time behaviour, so the model tracks the number of delays
  consumed from the generator rather than their magnitudes.
-/

namespace Backoff

/-- Truncation of a rational toward zero: Go's conversion of a `float64`
to an integer type (`time.Duration(f)`). -/
def truncQ (q : ℚ) : Int := if 0 ≤ q then ⌊q⌋ else -⌊-q⌋

/-- The `config` struct of `backoff.go`. -/
structure Config where
  initialDelay : Int
  maxDelay : Int
  multiplier : ℚ
  jitterFactor : ℚ
  maxRetries : Int
deriving DecidableEq, Repr

/-- `math.MaxInt` on a 64-bit platform, the "infinite retries" sentinel. -/
def maxInt : Int := 2 ^ 63 - 1

/-- Option `InitialDelay(d)`: values `≤ 0` normalize to 1ms. -/
def InitialDelay (d : Int) (c : Config) : Config :=
  { c with initialDelay := if d ≤ 0 then 1000000 else d }

/-- Option `MaxDelay(d)`: values `≤ 0` normalize to 30s. -/
def MaxDelay (d : Int) (c : Config) : Config :=
  { c with maxDelay := if d ≤ 0 then 30000000000 else d }

/-- Option `Multiplier(m)`: values `≤ 1.0` normalize to 2.0. -/
def Multiplier (m : ℚ) (c : Config) : Config :=
  { c with multiplier := if m ≤ 1 then 2 else m }

/-- Option `JitterFactor(f)`: negative values normalize to 0. -/
def JitterFactor (f : ℚ) (c : Config) : Config :=
  { c with jitterFactor := if f < 0 then 0 else f }

/-- Option `MaxRetries(r)`: negative values normalize to 0. -/
def MaxRetries (r : Int) (c : Config) : Config :=
  { c with maxRetries := if r < 0 then 0 else r }

/-- Option `Constant()`: 1s fixed delay, multiplier 1, no jitter. -/
def Constant (c : Config) : Config :=
  { c with initialDelay := 1000000000, maxDelay := 1000000000,
           multiplier := 1, jitterFactor := 0 }

/-- Option `Exponential()`: 100ms initial, 30s max, multiplier 2, 10% jitter. -/
def Exponential (c : Config) : Config :=
  { c with initialDelay := 100000000, maxDelay := 30000000000,
           multiplier := 2, jitterFactor := 1/10 }

/-- The configuration `Iter` starts from before applying user options:
`maxRetries: math.MaxInt` then `Exponential()`. -/
def defaultConfig : Config :=
  Exponential { initialDelay := 0, maxDelay := 0, multiplier := 0,
                jitterFactor := 0, maxRetries := maxInt }

/-- `Iter`'s option processing: defaults, then user options left to right. -/
def applyOptions (opts : List (Config → Config)) : Config :=
  opts.foldl (fun c o => o c) defaultConfig

/-- Configurations reachable through `Iter`'s option pipeline satisfy this
(see `applyOptions_valid`). -/
def ValidConfig (c : Config) : Prop :=
  0 < c.initialDelay ∧ 0 < c.maxDelay ∧ 1 ≤ c.multiplier ∧
    0 ≤ c.jitterFactor ∧ 0 ≤ c.maxRetries

/-- The mutation `cfg.maxDelay = cfg.initialDelay` performed at the start of
the generator closure when `cfg.maxDelay < cfg.initialDelay`. -/
def effective (c : Config) : Config :=
  if c.maxDelay < c.initialDelay then { c with maxDelay := c.initialDelay } else c

/-- The `currentDelay` local of `Iter`'s loop body before the clamp: jitter
applied to the tracked delay when `jitterFactor > 0` (`jitterRange :=
float64(delay) * jitterFactor`, `jitter := (r - 0.5) * 2 * jitterRange`,
`currentDelay = Duration(float64(delay) + jitter)` with `r` this step's
`rand.Float64()` draw), otherwise the tracked delay unchanged. -/
def jitteredDelay (c : Config) (delay : Int) (r : ℚ) : Int :=
  if 0 < c.jitterFactor then
    truncQ ((delay : ℚ) + (r - 1/2) * 2 * ((delay : ℚ) * c.jitterFactor))
  else delay

/-- Loop body of `Iter`, yielded value: the clamp
`if currentDelay > maxDelay { currentDelay = maxDelay }`. -/
def yieldedDelay (c : Config) (delay : Int) (r : ℚ) : Int :=
  if c.maxDelay < jitteredDelay c delay r then c.maxDelay
  else jitteredDelay c delay r

/-- Loop body of `Iter`, state advance:
`delay = min(maxDelay, Duration(float64(delay) * multiplier))`. -/
def nextDelay (c : Config) (delay : Int) : Int :=
  min c.maxDelay (truncQ ((delay : ℚ) * c.multiplier))

/-- The `for attempt < cfg.maxRetries` loop of `Iter`.  `fuel` is how many
more elements the consumer will accept before its `yield` returns `false`. -/
def iterAux (c : Config) (rs : Nat → ℚ) : Int → Nat → Nat → List Int
  | _, _, 0 => []
  | delay, attempt, fuel + 1 =>
    if (attempt : Int) < c.maxRetries then
      yieldedDelay c delay (rs attempt) ::
        iterAux c rs (nextDelay c delay) (attempt + 1) fuel
    else []

/-- The sequence of delays `Iter` yields to a consumer that accepts up to
`req` elements, given the random draws `rs`. -/
def iterDelays (c : Config) (rs : Nat → ℚ) (req : Nat) : List Int :=
  iterAux (effective c) rs (effective c).initialDelay 0 req

/-- The unjittered tracked delay after `n` further state advances starting
from the value `d` of the `delay` variable. -/
def trackedFrom (c : Config) (d : Int) : Nat → Int
  | 0 => d
  | n + 1 => trackedFrom c (nextDelay c d) n

/-- The unjittered tracked delay before step `n` (the value of the `delay`
variable at the top of the `n`-th loop iteration of `Iter`). -/
def trackedDelay (c : Config) (n : Nat) : Int :=
  trackedFrom c c.initialDelay n

/-- Errors visible to the retry driver. `cancelE` is a `CancelError{Err}`
value, `plainE` any other non-nil operation error, `ctxE` the value of
`ctx.Err()` returned when the `select` observes `ctx.Done()`. -/
inductive RErr where
  | cancelE : Nat → RErr
  | plainE : Nat → RErr
  | ctxE : RErr
deriving DecidableEq, Repr

/-- The type assertion `_, ok := err.(CancelError)` on a non-nil error. -/
def isCancelError : RErr → Bool
  | .cancelE _ => true
  | _ => false

/-- A non-nil error that is neither a `CancelError` nor the context error:
the driver treats it as recoverable. -/
def recoverableErr : Option RErr → Bool
  | some (.plainE _) => true
  | _ => false

/-- Observable outcome of a `RetryWithContext` call: the returned pair plus
the number of operation invocations and of delays consumed from `Iter`. -/
structure RetryTrace (α : Type) where
  value : α
  error : Option RErr
  invocations : Nat
  delaysConsumed : Nat
deriving DecidableEq, Repr

/-- The `for delay := range Iter(...)` loop of `RetryWithContext`.
`rem` is the number of elements the generator can still yield
(`maxRetries - i`), `i` the number of delays consumed so far, `v`/`e` the
current `result`/`lastErr`.  At each yielded delay the `select` races
`ctx.Done()` against `time.After(delay)`; `cancelled i` tells which case
wins at step `i`. -/
def retryLoop {α : Type} (fn : Nat → α × Option RErr) (cancelled : Nat → Bool) :
    Nat → Nat → α → RErr → RetryTrace α
  | 0, i, v, e => ⟨v, some e, i + 1, i⟩
  | rem + 1, i, v, e =>
    if cancelled i then ⟨v, some .ctxE, i + 1, i + 1⟩
    else
      match (fn (i + 1)).2 with
      | none => ⟨(fn (i + 1)).1, none, i + 2, i + 1⟩
      | some e' =>
        if isCancelError e' then ⟨(fn (i + 1)).1, some e', i + 2, i + 1⟩
        else retryLoop fn cancelled rem (i + 1) (fn (i + 1)).1 e'

/-- `RetryWithContext(ctx, fn, options...)`: one unconditional first
invocation, an early return on success or `CancelError`, then the loop
over the delays of `Iter`.  `fn j` is the result of the `j`-th invocation
(0-based). -/
def retryWithContext {α : Type} (fn : Nat → α × Option RErr)
    (cancelled : Nat → Bool) (c : Config) : RetryTrace α :=
  match (fn 0).2 with
  | none => ⟨(fn 0).1, none, 1, 0⟩
  | some e =>
    if isCancelError e then ⟨(fn 0).1, some e, 1, 0⟩
    else retryLoop fn cancelled c.maxRetries.toNat 0 (fn 0).1 e

/-! ## Basic lemmas about truncation -/

theorem truncQ_intCast (k : ℤ) : truncQ (k : ℚ) = k := by
  unfold truncQ
  split
  · exact Int.floor_intCast k
  · rw [← Int.cast_neg, Int.floor_intCast]; ring

theorem truncQ_nonneg {q : ℚ} (h : 0 ≤ q) : 0 ≤ truncQ q := by
  unfold truncQ
  rw [if_pos h]
  exact_mod_cast Int.le_floor.mpr (by exact_mod_cast h)

theorem truncQ_le_self {q : ℚ} (h : 0 ≤ q) : (truncQ q : ℚ) ≤ q := by
  unfold truncQ
  rw [if_pos h]
  exact Int.floor_le q

theorem truncQ_nonpos {q : ℚ} (h : q < 0) : truncQ q ≤ 0 := by
  unfold truncQ
  rw [if_neg (not_le.mpr h)]
  have : (0 : ℤ) ≤ ⌊-q⌋ := Int.le_floor.mpr (by push_cast; linarith)
  omega

theorem sub_one_lt_truncQ (q : ℚ) : q - 1 < (truncQ q : ℚ) := by
  unfold truncQ
  split
  · exact Int.sub_one_lt_floor q
  · push_cast
    have h1 : (⌊-q⌋ : ℚ) ≤ -q := Int.floor_le (-q)
    linarith

theorem le_truncQ {k : ℤ} {q : ℚ} (hk : 0 ≤ k) (h : (k : ℚ) ≤ q) :
    k ≤ truncQ q := by
  unfold truncQ
  rw [if_pos (le_trans (by exact_mod_cast hk) h)]
  exact Int.le_floor.mpr h

/-! ## The generator: closed form, length, tracked-delay invariants -/

theorem trackedFrom_succ (c : Config) (d : Int) (n : Nat) :
    trackedFrom c d (n + 1) = nextDelay c (trackedFrom c d n) := by
  induction n generalizing d with
  | zero => rfl
  | succ n ih => rw [trackedFrom, ih, trackedFrom]

theorem trackedDelay_zero (c : Config) : trackedDelay c 0 = c.initialDelay := rfl

theorem trackedDelay_succ (c : Config) (n : Nat) :
    trackedDelay c (n + 1) = nextDelay c (trackedDelay c n) :=
  trackedFrom_succ c c.initialDelay n

/-- Closed form of the `Iter` loop: the delays yielded to a consumer that
accepts `fuel` elements, starting from tracked delay `d` at attempt `a`. -/
theorem iterAux_eq_map (c : Config) (rs : Nat → ℚ) (d : Int) (a fuel : Nat) :
    iterAux c rs d a fuel =
      (List.range (min (c.maxRetries - a).toNat fuel)).map
        (fun j => yieldedDelay c (trackedFrom c d j) (rs (a + j))) := by
  induction fuel generalizing d a with
  | zero => simp [iterAux]
  | succ fuel ih =>
    by_cases h : (a : Int) < c.maxRetries
    · rw [iterAux, if_pos h]
      have hpos : (c.maxRetries - a).toNat = (c.maxRetries - (a + 1 : Nat)).toNat + 1 := by
        omega
      rw [ih, hpos, Nat.succ_min_succ, List.range_succ_eq_map, List.map_cons,
        List.map_map]
      refine congrArg₂ _ (by simp [trackedFrom]) ?_
      refine List.map_congr_left fun j _ => ?_
      simp only [Function.comp_apply, trackedFrom]
      exact congrArg₂ _ rfl (congrArg rs (by omega))
    · rw [iterAux, if_neg h]
      have hz : (c.maxRetries - a).toNat = 0 := by omega
      simp [hz]

theorem effective_initialDelay (c : Config) :
    (effective c).initialDelay = c.initialDelay := by
  unfold effective; split <;> rfl

theorem effective_maxDelay (c : Config) :
    (effective c).maxDelay = max c.maxDelay c.initialDelay := by
  unfold effective; split <;> simp <;> omega

theorem effective_multiplier (c : Config) :
    (effective c).multiplier = c.multiplier := by
  unfold effective; split <;> rfl

theorem effective_jitterFactor (c : Config) :
    (effective c).jitterFactor = c.jitterFactor := by
  unfold effective; split <;> rfl

theorem effective_maxRetries (c : Config) :
    (effective c).maxRetries = c.maxRetries := by
  unfold effective; split <;> rfl

theorem initialDelay_le_effective_maxDelay (c : Config) :
    c.initialDelay ≤ (effective c).maxDelay := by
  rw [effective_maxDelay]; omega

theorem iterDelays_eq_map (c : Config) (rs : Nat → ℚ) (req : Nat) :
    iterDelays c rs req =
      (List.range (min c.maxRetries.toNat req)).map
        (fun j => yieldedDelay (effective c) (trackedDelay (effective c) j) (rs j)) := by
  unfold iterDelays trackedDelay
  rw [iterAux_eq_map, effective_maxRetries, effective_initialDelay]
  norm_num

theorem length_iterDelays (c : Config) (rs : Nat → ℚ) (req : Nat) :
    (iterDelays c rs req).length = min c.maxRetries.toNat req := by
  rw [iterDelays_eq_map, List.length_map, List.length_range]

theorem getElem?_iterDelays (c : Config) (rs : Nat → ℚ) {req n : Nat}
    (hn : n < min c.maxRetries.toNat req) :
    (iterDelays c rs req)[n]? =
      some (yieldedDelay (effective c) (trackedDelay (effective c) n) (rs n)) := by
  rw [iterDelays_eq_map, List.getElem?_map, List.getElem?_range hn, Option.map_some']

theorem nextDelay_le_max (c : Config) (d : Int) : nextDelay c d ≤ c.maxDelay :=
  min_le_left _ _

theorem le_nextDelay {c : Config} {d : Int} (hd0 : 0 ≤ d) (hdm : d ≤ c.maxDelay)
    (hm : 1 ≤ c.multiplier) : d ≤ nextDelay c d := by
  refine le_min hdm (le_truncQ hd0 ?_)
  calc (d : ℚ) = (d : ℚ) * 1 := by ring
    _ ≤ (d : ℚ) * c.multiplier :=
      mul_le_mul_of_nonneg_left hm (by exact_mod_cast hd0)

theorem trackedDelay_nonneg {c : Config} (h0 : 0 ≤ c.initialDelay)
    (hle : c.initialDelay ≤ c.maxDelay) (hm : 1 ≤ c.multiplier) (n : Nat) :
    0 ≤ trackedDelay c n ∧ trackedDelay c n ≤ c.maxDelay := by
  induction n with
  | zero => exact ⟨h0, hle⟩
  | succ n ih =>
    rw [trackedDelay_succ]
    exact ⟨le_trans ih.1 (le_nextDelay ih.1 ih.2 hm), nextDelay_le_max c _⟩

theorem trackedDelay_mono {c : Config} (h0 : 0 ≤ c.initialDelay)
    (hle : c.initialDelay ≤ c.maxDelay) (hm : 1 ≤ c.multiplier) (n : Nat) :
    trackedDelay c n ≤ trackedDelay c (n + 1) := by
  rw [trackedDelay_succ]
  exact le_nextDelay (trackedDelay_nonneg h0 hle hm n).1
    (trackedDelay_nonneg h0 hle hm n).2 hm

theorem trackedDelay_saturates {c : Config} (hm : 1 ≤ c.multiplier)
    (hmd : 0 ≤ c.maxDelay) {n : Nat} (h : trackedDelay c n = c.maxDelay) :
    trackedDelay c (n + 1) = c.maxDelay := by
  rw [trackedDelay_succ, h]
  exact le_antisymm (nextDelay_le_max c _) (le_nextDelay hmd le_rfl hm)

/-- Without jitter the loop body yields the tracked delay itself (the clamp
is inactive because the tracked delay never exceeds `maxDelay`). -/
theorem yieldedDelay_no_jitter {c : Config} {d : Int} (hj : c.jitterFactor = 0)
    (hdm : d ≤ c.maxDelay) (r : ℚ) : yieldedDelay c d r = d := by
  unfold yieldedDelay jitteredDelay
  rw [hj, if_neg (lt_irrefl (0 : ℚ)), if_neg (not_lt.mpr hdm)]

theorem yieldedDelay_le_max (c : Config) (d : Int) (r : ℚ) :
    yieldedDelay c d r ≤ c.maxDelay := by
  unfold yieldedDelay
  split
  · rfl
  · omega

theorem jitteredDelay_nonneg {c : Config} {d : Int} {r : ℚ}
    (hf1 : c.jitterFactor ≤ 1) (hd0 : 0 ≤ d) (hr0 : 0 ≤ r) :
    0 ≤ jitteredDelay c d r := by
  unfold jitteredDelay
  split
  · rename_i hf
    refine truncQ_nonneg ?_
    have hd0' : (0 : ℚ) ≤ (d : ℚ) := by exact_mod_cast hd0
    have h1 : (d : ℚ) * c.jitterFactor ≤ (d : ℚ) * 1 :=
      mul_le_mul_of_nonneg_left hf1 hd0'
    have h2 : 0 ≤ r * ((d : ℚ) * c.jitterFactor) :=
      mul_nonneg hr0 (mul_nonneg hd0' (le_of_lt hf))
    nlinarith
  · exact hd0

theorem yieldedDelay_nonneg {c : Config} {d : Int} {r : ℚ}
    (hf1 : c.jitterFactor ≤ 1) (hd0 : 0 ≤ d) (hmd : 0 ≤ c.maxDelay)
    (hr0 : 0 ≤ r) : 0 ≤ yieldedDelay c d r := by
  have := jitteredDelay_nonneg hf1 hd0 hr0 (c := c)
  unfold yieldedDelay
  split <;> omega

/-- With jitter active and a draw `r ∈ [0,1)`, the yielded delay lies in
`(base·(1−f) − 1, base·(1+f)]` — the lower end can undershoot the
real-valued bound by less than 1ns because of truncation toward zero. -/
theorem yieldedDelay_jitter_bounds {c : Config} {d : Int} {r : ℚ}
    (hf : 0 < c.jitterFactor) (hd0 : 0 ≤ d) (hdm : d ≤ c.maxDelay)
    (hr0 : 0 ≤ r) (hr1 : r < 1) :
    (d : ℚ) * (1 - c.jitterFactor) - 1 < (yieldedDelay c d r : ℚ) ∧
      (yieldedDelay c d r : ℚ) ≤ (d : ℚ) * (1 + c.jitterFactor) := by
  unfold yieldedDelay jitteredDelay
  rw [if_pos hf]
  set f : ℚ := c.jitterFactor with hfdef
  set x : ℚ := (d : ℚ) + (r - 1/2) * 2 * ((d : ℚ) * f) with hxdef
  have hd0' : (0 : ℚ) ≤ (d : ℚ) := by exact_mod_cast hd0
  have hdf : 0 ≤ (d : ℚ) * f := mul_nonneg hd0' (le_of_lt hf)
  have hrdf : 0 ≤ r * ((d : ℚ) * f) := mul_nonneg hr0 hdf
  have hr1df : 0 ≤ (1 - r) * ((d : ℚ) * f) := mul_nonneg (by linarith) hdf
  have hxlo : (d : ℚ) * (1 - f) ≤ x := by rw [hxdef]; nlinarith
  have hxhi : x ≤ (d : ℚ) * (1 + f) := by rw [hxdef]; nlinarith
  constructor
  · split
    · rename_i hclamp
      have hdm' : (d : ℚ) ≤ (c.maxDelay : ℚ) := by exact_mod_cast hdm
      nlinarith
    · have h1 : x - 1 < (truncQ x : ℚ) := sub_one_lt_truncQ x
      linarith
  · split
    · rename_i hclamp
      rcases le_or_lt 0 x with hx0 | hx0
      · have h2 : (truncQ x : ℚ) ≤ x := truncQ_le_self hx0
        have h3 : (c.maxDelay : ℚ) < (truncQ x : ℚ) := by exact_mod_cast hclamp
        linarith
      · have h4 : truncQ x ≤ 0 := truncQ_nonpos hx0
        have h5 : (c.maxDelay : ℚ) < (truncQ x : ℚ) := by exact_mod_cast hclamp
        have h6 : (truncQ x : ℚ) ≤ 0 := by exact_mod_cast h4
        nlinarith
    · rcases le_or_lt 0 x with hx0 | hx0
      · have h2 : (truncQ x : ℚ) ≤ x := truncQ_le_self hx0
        linarith
      · have h4 : truncQ x ≤ 0 := truncQ_nonpos hx0
        have h5 : (truncQ x : ℚ) ≤ 0 := by exact_mod_cast h4
        nlinarith

/-! ## The retry driver: loop lemmas -/

/-- An operation outcome on which the loop body returns without iterating
further: success (`nil`) or a `CancelError`. -/
def stopsOp : Option RErr → Bool
  | none => true
  | some e => isCancelError e

theorem recoverableErr_elim {o : Option RErr} (h : recoverableErr o = true) :
    ∃ k, o = some (.plainE k) := by
  match o with
  | none => simp [recoverableErr] at h
  | some (.plainE k) => exact ⟨k, rfl⟩
  | some (.cancelE k) => simp [recoverableErr] at h
  | some .ctxE => simp [recoverableErr] at h

/-- One loop iteration that records a recoverable error and continues. -/
theorem retryLoop_step {α : Type} (fn : Nat → α × Option RErr)
    (cancelled : Nat → Bool) (rem : Nat) {i k : Nat} {v : α} {e : RErr}
    (hci : cancelled i = false) (hk : (fn (i + 1)).2 = some (.plainE k)) :
    retryLoop fn cancelled (rem + 1) i v e =
      retryLoop fn cancelled rem (i + 1) (fn (i + 1)).1 (.plainE k) := by
  simp [retryLoop, hci, hk, isCancelError]

theorem retryLoop_all_recoverable {α : Type} (fn : Nat → α × Option RErr)
    (cancelled : Nat → Bool) (hrec : ∀ j, recoverableErr (fn j).2 = true)
    (hc : ∀ j, cancelled j = false) :
    ∀ rem i (v : α) e, retryLoop fn cancelled (rem + 1) i v e =
      ⟨(fn (i + rem + 1)).1, (fn (i + rem + 1)).2, i + rem + 2, i + rem + 1⟩ := by
  intro rem
  induction rem with
  | zero =>
    intro i v e
    obtain ⟨k, hk⟩ := recoverableErr_elim (hrec (i + 1))
    rw [retryLoop_step fn cancelled 0 (hc i) hk, retryLoop, hk]
  | succ rem ih =>
    intro i v e
    obtain ⟨k, hk⟩ := recoverableErr_elim (hrec (i + 1))
    have h2 : i + 1 + rem + 1 = i + (rem + 1) + 1 := by omega
    have h3 : i + 1 + rem + 2 = i + (rem + 1) + 2 := by omega
    rw [retryLoop_step fn cancelled (rem + 1) (hc i) hk, ih (i + 1), h2, h3]

theorem retryLoop_reaches_stop {α : Type} (fn : Nat → α × Option RErr)
    (cancelled : Nat → Bool) (t : Nat) (hstop : stopsOp (fn t).2 = true) :
    ∀ rem i (v : α) e, (∀ j, i < j → j < t → recoverableErr (fn j).2 = true) →
      (∀ j, i ≤ j → j < t → cancelled j = false) → i < t → t ≤ i + rem →
      retryLoop fn cancelled rem i v e = ⟨(fn t).1, (fn t).2, t + 1, t⟩ := by
  intro rem
  induction rem with
  | zero => intro i v e _ _ hi hrem; omega
  | succ rem ih =>
    intro i v e hrec hc hi hrem
    have hci : cancelled i = false := hc i le_rfl hi
    rcases Nat.lt_or_ge (i + 1) t with hlt | hge
    · obtain ⟨k, hk⟩ := recoverableErr_elim (hrec (i + 1) (by omega) hlt)
      rw [retryLoop_step fn cancelled rem hci hk]
      exact ih (i + 1) _ _ (fun j h1 h2 => hrec j (by omega) h2)
        (fun j h1 h2 => hc j (by omega) h2) hlt (by omega)
    · have ht : t = i + 1 := by omega
      subst ht
      match hk : (fn (i + 1)).2 with
      | none => simp [retryLoop, hci, hk]
      | some e' =>
        have hce : isCancelError e' = true := by
          rw [hk] at hstop
          simpa [stopsOp] using hstop
        simp [retryLoop, hci, hk, hce]

theorem retryLoop_reaches_cancel {α : Type} (fn : Nat → α × Option RErr)
    (cancelled : Nat → Bool) (t : Nat) (hct : cancelled t = true) :
    ∀ rem i (v : α) e, v = (fn i).1 →
      (∀ j, i < j → j ≤ t → recoverableErr (fn j).2 = true) →
      (∀ j, i ≤ j → j < t → cancelled j = false) → i ≤ t → t < i + rem →
      retryLoop fn cancelled rem i v e = ⟨(fn t).1, some .ctxE, t + 1, t + 1⟩ := by
  intro rem
  induction rem with
  | zero => intro i v e _ _ _ hi hrem; omega
  | succ rem ih =>
    intro i v e hv hrec hc hi hrem
    rcases Nat.lt_or_ge i t with hlt | hge
    · have hci : cancelled i = false := hc i le_rfl hlt
      obtain ⟨k, hk⟩ := recoverableErr_elim (hrec (i + 1) (by omega) (by omega))
      rw [retryLoop_step fn cancelled rem hci hk]
      exact ih (i + 1) _ _ rfl (fun j h1 h2 => hrec j (by omega) h2)
        (fun j h1 h2 => hc j (by omega) h2) (by omega) (by omega)
    · have ht : t = i := by omega
      subst ht
      simp [retryLoop, hct, hv]

theorem retryWithContext_enters_loop {α : Type} {fn : Nat → α × Option RErr}
    (cancelled : Nat → Bool) (c : Config) {k : Nat}
    (hk : (fn 0).2 = some (.plainE k)) :
    retryWithContext fn cancelled c =
      retryLoop fn cancelled c.maxRetries.toNat 0 (fn 0).1 (.plainE k) := by
  simp [retryWithContext, hk, isCancelError]

theorem retryWithContext_first_result {α : Type} {fn : Nat → α × Option RErr}
    (cancelled : Nat → Bool) (c : Config)
    (h : stopsOp (fn 0).2 = true) :
    retryWithContext fn cancelled c = ⟨(fn 0).1, (fn 0).2, 1, 0⟩ := by
  match hk : (fn 0).2 with
  | none => simp [retryWithContext, hk]
  | some e =>
    have hce : isCancelError e = true := by
      rw [hk] at h
      simpa [stopsOp] using h
    simp [retryWithContext, hk, hce]

theorem retryWithContext_invocations_pos {α : Type} (fn : Nat → α × Option RErr)
    (cancelled : Nat → Bool) (c : Config) :
    1 ≤ (retryWithContext fn cancelled c).invocations := by
  have hloop : ∀ rem i (v : α) e,
      1 ≤ (retryLoop fn cancelled rem i v e).invocations := by
    intro rem
    induction rem with
    | zero => intro i v e; simp [retryLoop]
    | succ rem ih =>
      intro i v e
      rw [retryLoop]
      split
      · simp
      · cases hk : (fn (i + 1)).2 with
        | none => simp
        | some e' =>
          simp only []
          split
          · simp
          · exact ih (i + 1) _ _
  unfold retryWithContext
  split
  · simp
  · split
    · simp
    · exact hloop _ _ _ _

/-! ## Option pipeline: every reachable config is valid -/

/-- The functional options `backoff.go` exports. -/
def IsOption (o : Config → Config) : Prop :=
  (∃ d, o = InitialDelay d) ∨ (∃ d, o = MaxDelay d) ∨ (∃ m, o = Multiplier m) ∨
    (∃ f, o = JitterFactor f) ∨ (∃ r, o = MaxRetries r) ∨ o = Constant ∨
    o = Exponential

theorem defaultConfig_valid : ValidConfig defaultConfig := by
  refine ⟨by norm_num [defaultConfig, Exponential], by norm_num [defaultConfig, Exponential],
    by norm_num [defaultConfig, Exponential], by norm_num [defaultConfig, Exponential], ?_⟩
  norm_num [defaultConfig, Exponential, maxInt]

theorem option_preserves_valid {o : Config → Config} {c : Config}
    (ho : IsOption o) (hc : ValidConfig c) : ValidConfig (o c) := by
  obtain ⟨h1, h2, h3, h4, h5⟩ := hc
  rcases ho with ⟨d, rfl⟩ | ⟨d, rfl⟩ | ⟨m, rfl⟩ | ⟨f, rfl⟩ | ⟨r, rfl⟩ | rfl | rfl
  · refine ⟨?_, h2, h3, h4, h5⟩
    unfold InitialDelay
    dsimp only
    split <;> omega
  · refine ⟨h1, ?_, h3, h4, h5⟩
    unfold MaxDelay
    dsimp only
    split <;> omega
  · refine ⟨h1, h2, ?_, h4, h5⟩
    unfold Multiplier
    dsimp only
    split
    · norm_num
    · linarith [not_le.mp (by assumption)]
  · refine ⟨h1, h2, h3, ?_, h5⟩
    unfold JitterFactor
    dsimp only
    split
    · exact le_rfl
    · exact not_lt.mp (by assumption)
  · refine ⟨h1, h2, h3, h4, ?_⟩
    unfold MaxRetries
    dsimp only
    split <;> omega
  · exact ⟨by norm_num [Constant], by norm_num [Constant], by norm_num [Constant],
      by norm_num [Constant], h5⟩
  · exact ⟨by norm_num [Exponential], by norm_num [Exponential],
      by norm_num [Exponential], by norm_num [Exponential], h5⟩

theorem applyOptions_valid (opts : List (Config → Config))
    (h : ∀ o ∈ opts, IsOption o) : ValidConfig (applyOptions opts) := by
  have aux : ∀ (l : List (Config → Config)) (c : Config), (∀ o ∈ l, IsOption o) →
      ValidConfig c → ValidConfig (l.foldl (fun c o => o c) c) := by
    intro l
    induction l with
    | nil => intro c _ hc; exact hc
    | cons o l ih =>
      intro c hl hc
      exact ih (o c) (fun o' ho' => hl o' (List.mem_cons_of_mem o ho'))
        (option_preserves_valid (hl o (List.mem_cons_self o l)) hc)
  exact aux opts defaultConfig h defaultConfig_valid

/-! ## Closed form of the tracked delay for an integer multiplier -/

theorem trackedDelay_closed_form {c : Config} {m : ℤ}
    (hmul : c.multiplier = (m : ℚ)) (hm : 1 ≤ m) (h0 : 0 ≤ c.initialDelay)
    (hle : c.initialDelay ≤ c.maxDelay) (n : Nat) :
    trackedDelay c n = min c.maxDelay (c.initialDelay * m ^ n) := by
  have h0M : 0 ≤ c.maxDelay := le_trans h0 hle
  induction n with
  | zero =>
    rw [trackedDelay_zero, pow_zero, mul_one, min_eq_right hle]
  | succ n ih =>
    rw [trackedDelay_succ, ih]
    unfold nextDelay
    rw [hmul]
    have hcast : ((min c.maxDelay (c.initialDelay * m ^ n) : ℤ) : ℚ) * (m : ℚ) =
        (((min c.maxDelay (c.initialDelay * m ^ n)) * m : ℤ) : ℚ) := by push_cast; ring
    rw [hcast, truncQ_intCast]
    rcases le_total (c.initialDelay * m ^ n) c.maxDelay with hcase | hcase
    · rw [min_eq_right hcase, pow_succ, ← mul_assoc]
    · have hd0mn : 0 ≤ c.initialDelay * m ^ n :=
        mul_nonneg h0 (pow_nonneg (le_trans zero_le_one hm) n)
      have hMm : c.maxDelay ≤ c.maxDelay * m := le_mul_of_one_le_right h0M hm
      have hnext : c.maxDelay ≤ c.initialDelay * m ^ (n + 1) := by
        calc c.maxDelay ≤ c.initialDelay * m ^ n := hcase
          _ ≤ c.initialDelay * m ^ n * m := le_mul_of_one_le_right hd0mn hm
          _ = c.initialDelay * m ^ (n + 1) := by rw [pow_succ, mul_assoc]
      rw [min_eq_left hcase, min_eq_left hMm, min_eq_left hnext]

/-! ## Determinism without jitter -/

theorem yieldedDelay_draw_irrelevant {c : Config} (hj : c.jitterFactor = 0)
    (d : Int) (r r' : ℚ) : yieldedDelay c d r = yieldedDelay c d r' := by
  simp [yieldedDelay, jitteredDelay, hj]

theorem iterDelays_draw_irrelevant {c : Config} (hj : c.jitterFactor = 0)
    (rs rs' : Nat → ℚ) (req : Nat) : iterDelays c rs req = iterDelays c rs' req := by
  rw [iterDelays_eq_map, iterDelays_eq_map]
  refine List.map_congr_left fun j _ => ?_
  exact yieldedDelay_draw_irrelevant (by rw [effective_jitterFactor, hj]) _ _ _

theorem trackedDelay_le_max_effective (c : Config) (n : Nat) :
    trackedDelay (effective c) n ≤ (effective c).maxDelay := by
  cases n with
  | zero =>
    rw [trackedDelay_zero, effective_initialDelay]
    exact initialDelay_le_effective_maxDelay c
  | succ n =>
    rw [trackedDelay_succ]
    exact nextDelay_le_max _ _

/-! ## Claim C1 -/

/-- Concrete scenario: `initial_delay=100ms, max_delay=1s, multiplier=2.0,
jitter=0, max_retries=4`. -/
def scenario1 : Config :=
  applyOptions [InitialDelay 100000000, MaxDelay 1000000000, Multiplier 2,
    JitterFactor 0, MaxRetries 4]

/-- Concrete scenario: same as `scenario1` but `max_delay=300ms`. -/
def scenario2 : Config :=
  applyOptions [InitialDelay 100000000, MaxDelay 300000000, Multiplier 2,
    JitterFactor 0, MaxRetries 4]

/-- A config on which the exact power formula of C1 fails: 5ns initial
delay and multiplier 1.5 (a float64-exact value). -/
def cx1 : Config :=
  applyOptions [InitialDelay 5, MaxDelay 1000000000, Multiplier (3/2),
    JitterFactor 0, MaxRetries 4]

/-- C1 (counterexample): with `initial_delay = 5ns`, `multiplier = 1.5`,
`jitter = 0`, the delay at index 2 yielded by `Iter` is 10ns, but
`min(max_delay, initial_delay * multiplier^2) = 11.25ns` (11ns after Go's
float-to-Duration truncation): the code truncates after every
multiplication, so the n-th delay is not `min(max_delay,
initial_delay * multiplier^n)` in general. -/
theorem C1_counterexample :
    (iterDelays cx1 (fun _ => 0) 4)[2]? = some 10 ∧
    ((10 : ℚ) ≠ min ((1000000000 : ℚ)) ((5 : ℚ) * (3/2) ^ 2)) ∧
    ((10 : Int) ≠ truncQ (min ((1000000000 : ℚ)) ((5 : ℚ) * (3/2) ^ 2))) := by
  refine ⟨?_, by norm_num [min_def], ?_⟩
  · norm_num [cx1, applyOptions, defaultConfig, Exponential, InitialDelay,
      MaxDelay, Multiplier, JitterFactor, MaxRetries, maxInt, iterDelays,
      iterAux, effective, yieldedDelay, jitteredDelay, nextDelay, truncQ]
  · norm_num [min_def, truncQ]

/-- C1 (amended): for every config with `jitter_factor = 0`, the n-th
yielded delay equals the tracked delay obtained from `initial_delay` by
`n` applications of `delay ↦ min(max_delay, trunc(delay * multiplier))`
(truncation toward zero after each multiplication, `max_delay` raised to
`initial_delay` if configured lower); when the multiplier is an integer
`m ≥ 1` this equals `min(max_delay, initial_delay * m^n)` exactly; the
two concrete scenarios yield exactly `[100ms, 200ms, 400ms, 800ms]` and
`[100ms, 200ms, 300ms, 300ms]`. -/
theorem C1_delays_closed_form (c : Config) (rs : Nat → ℚ) (req n : Nat)
    (hj : c.jitterFactor = 0) (hn : n < min c.maxRetries.toNat req) :
    ((iterDelays c rs req)[n]? = some (trackedDelay (effective c) n)) ∧
    (∀ m : ℤ, c.multiplier = (m : ℚ) → 1 ≤ m → 0 ≤ c.initialDelay →
      trackedDelay (effective c) n =
        min (effective c).maxDelay (c.initialDelay * m ^ n)) ∧
    iterDelays scenario1 (fun _ => 0) 5 =
      [100000000, 200000000, 400000000, 800000000] ∧
    iterDelays scenario2 (fun _ => 0) 5 =
      [100000000, 200000000, 300000000, 300000000] := by
  refine ⟨?_, ?_, ?_, ?_⟩
  · rw [getElem?_iterDelays c rs hn]
    rw [yieldedDelay_no_jitter (by rw [effective_jitterFactor, hj])
      (trackedDelay_le_max_effective c n)]
  · intro m hmul hm h0
    have := trackedDelay_closed_form (c := effective c) (m := m)
      (by rw [effective_multiplier, hmul]) hm
      (by rw [effective_initialDelay]; exact h0)
      (by rw [effective_initialDelay]; exact initialDelay_le_effective_maxDelay c) n
    rw [this, effective_initialDelay]
  · norm_num [scenario1, applyOptions, defaultConfig, Exponential, InitialDelay,
      MaxDelay, Multiplier, JitterFactor, MaxRetries, maxInt, iterDelays,
      iterAux, effective, yieldedDelay, jitteredDelay, nextDelay, truncQ]
  · norm_num [scenario2, applyOptions, defaultConfig, Exponential, InitialDelay,
      MaxDelay, Multiplier, JitterFactor, MaxRetries, maxInt, iterDelays,
      iterAux, effective, yieldedDelay, jitteredDelay, nextDelay, truncQ]

/-- Witness for `C1_delays_closed_form` at `scenario1`, index 0. -/
theorem C1_witness :
    (iterDelays scenario1 (fun _ => 0) 5)[0]? =
      some (trackedDelay (effective scenario1) 0) :=
  (C1_delays_closed_form scenario1 (fun _ => 0) 5 0
    (by simp [scenario1, applyOptions, defaultConfig, Exponential, InitialDelay,
      MaxDelay, Multiplier, JitterFactor, MaxRetries])
    (by simp [scenario1, applyOptions, defaultConfig, Exponential, InitialDelay,
      MaxDelay, Multiplier, JitterFactor, MaxRetries])).1

/-! ## Claim C2 -/

/-- A config reachable through `Iter(JitterFactor(2))`: jitter factor 2 is
accepted unchanged by the option (only negative values are normalized). -/
def cx2 : Config := applyOptions [JitterFactor 2]

/-- C2 (counterexample): with jitter factor 2 (a legal option value) and
the legal draw `rand.Float64() = 0`, the first yielded delay is `-100ms`,
which is not in `[0, max_delay]`: the clamp has no lower floor. -/
theorem C2_counterexample :
    (iterDelays cx2 (fun _ => 0) 1)[0]? = some (-100000000) ∧
    (-100000000 : Int) < 0 := by
  refine ⟨?_, by norm_num⟩
  norm_num [cx2, applyOptions, defaultConfig, Exponential, InitialDelay,
    MaxDelay, Multiplier, JitterFactor, MaxRetries, maxInt, iterDelays,
    iterAux, effective, yieldedDelay, jitteredDelay, nextDelay, truncQ]

/-- C2 (amended): for every config reachable through the option pipeline
and draws `≥ 0`, every yielded delay is at most the effective `max_delay`
(raised to `initial_delay` at generator start if configured lower); it is
nonnegative whenever `jitter_factor ≤ 1` (with `jitter_factor > 1` the
unfloored jitter can push it negative); and the unjittered tracked delay
is monotonically non-decreasing, bounded by the effective `max_delay`,
and saturates there. -/
theorem C2_bounds_monotone (c : Config) (rs : Nat → ℚ) (req : Nat)
    (hv : ValidConfig c) (hr : ∀ i, 0 ≤ rs i) :
    (∀ d ∈ iterDelays c rs req, d ≤ (effective c).maxDelay) ∧
    (c.jitterFactor ≤ 1 → ∀ d ∈ iterDelays c rs req, 0 ≤ d) ∧
    (∀ n, trackedDelay (effective c) n ≤ trackedDelay (effective c) (n + 1)) ∧
    (∀ n, trackedDelay (effective c) n ≤ (effective c).maxDelay) ∧
    (∀ n, trackedDelay (effective c) n = (effective c).maxDelay →
      trackedDelay (effective c) (n + 1) = (effective c).maxDelay) := by
  obtain ⟨h1, h2, h3, h4, h5⟩ := hv
  have he1 : 0 ≤ (effective c).initialDelay := by
    rw [effective_initialDelay]; omega
  have he2 : (effective c).initialDelay ≤ (effective c).maxDelay := by
    rw [effective_initialDelay]; exact initialDelay_le_effective_maxDelay c
  have he3 : 1 ≤ (effective c).multiplier := by rw [effective_multiplier]; exact h3
  have heM : 0 ≤ (effective c).maxDelay := le_trans he1 he2
  refine ⟨?_, ?_, ?_, ?_, ?_⟩
  · intro d hd
    rw [iterDelays_eq_map] at hd
    obtain ⟨j, _, rfl⟩ := List.mem_map.mp hd
    exact yieldedDelay_le_max _ _ _
  · intro hf1 d hd
    rw [iterDelays_eq_map] at hd
    obtain ⟨j, _, rfl⟩ := List.mem_map.mp hd
    exact yieldedDelay_nonneg (by rw [effective_jitterFactor]; exact hf1)
      (trackedDelay_nonneg he1 he2 he3 j).1 heM (hr j)
  · exact fun n => trackedDelay_mono he1 he2 he3 n
  · exact fun n => (trackedDelay_nonneg he1 he2 he3 n).2
  · exact fun n h => trackedDelay_saturates he3 heM h

/-- Witness for `C2_bounds_monotone`: the default config, draw stream 0,
tracked-delay bound at step 2. -/
theorem C2_witness :
    trackedDelay (effective defaultConfig) 2 ≤ (effective defaultConfig).maxDelay :=
  (C2_bounds_monotone defaultConfig (fun _ => 0) 3 defaultConfig_valid
    (fun _ => le_rfl)).2.2.2.1 2

/-! ## Claim C7 -/

/-- C7: the generator yields exactly `min(max_retries, requested_count)`
elements; with `max_retries = 0` the sequence is empty; with the
`math.MaxInt` sentinel it never ends before the consumer stops (it yields
exactly as many elements as requested, for any feasible request count). -/
theorem C7_length (c : Config) (rs : Nat → ℚ) (req : Nat) :
    (iterDelays c rs req).length = min c.maxRetries.toNat req ∧
    (c.maxRetries = 0 → iterDelays c rs req = []) ∧
    (c.maxRetries = maxInt → req ≤ maxInt.toNat →
      (iterDelays c rs req).length = req) := by
  refine ⟨length_iterDelays c rs req, ?_, ?_⟩
  · intro h0
    have hl := length_iterDelays c rs req
    rw [h0] at hl
    simp only [Int.toNat_zero, Nat.zero_min] at hl
    exact List.length_eq_zero.mp hl
  · intro hs hreq
    rw [length_iterDelays, hs]
    exact Nat.min_eq_right hreq

/-- Witness for `C7_length`: `MaxRetries(0)` gives the empty sequence. -/
theorem C7_witness : iterDelays (applyOptions [MaxRetries 0]) (fun _ => 0) 3 = [] :=
  (C7_length (applyOptions [MaxRetries 0]) (fun _ => 0) 3).2.1
    (by simp [applyOptions, defaultConfig, Exponential, InitialDelay, MaxDelay,
      Multiplier, JitterFactor, MaxRetries])

/-! ## Claim C9 -/

/-- C9: with `jitter_factor = 0` the delay sequence is a deterministic
function of the config and the attempt index — two generator instances
from the same config yield identical sequences whatever their
`rand.Float64()` streams produce. -/
theorem C9_deterministic (c : Config) (rs rs' : Nat → ℚ) (req : Nat)
    (hj : c.jitterFactor = 0) : iterDelays c rs req = iterDelays c rs' req :=
  iterDelays_draw_irrelevant hj rs rs' req

/-- Witness for `C9_deterministic`: `scenario1` with two different draw
streams. -/
theorem C9_witness :
    iterDelays scenario1 (fun _ => 0) 3 = iterDelays scenario1 (fun _ => 1/2) 3 :=
  C9_deterministic scenario1 (fun _ => 0) (fun _ => 1/2) 3
    (by simp [scenario1, applyOptions, defaultConfig, Exponential, InitialDelay,
      MaxDelay, Multiplier, JitterFactor, MaxRetries])

/-! ## Claim C8 -/

/-- A config with 5ns initial delay and jitter factor 0.5 (both legal
option values). -/
def cx8 : Config := applyOptions [InitialDelay 5, JitterFactor (1/2), MaxRetries 1]

/-- C8 (counterexample): with base 5ns, jitter factor 0.5 and the legal
draw `rand.Float64() = 0`, the yielded delay is 2ns, strictly below
`base * (1 − f) = 2.5ns`: Go truncates `Duration(float64(delay)+jitter)`
toward zero, so the yielded delay can undershoot the claimed lower bound. -/
theorem C8_counterexample :
    trackedDelay (effective cx8) 0 = 5 ∧
    (iterDelays cx8 (fun _ => 0) 1)[0]? = some 2 ∧
    ((2 : ℚ) < (5 : ℚ) * (1 - 1/2)) := by
  refine ⟨?_, ?_, by norm_num⟩
  · norm_num [cx8, applyOptions, defaultConfig, Exponential, InitialDelay,
      MaxDelay, Multiplier, JitterFactor, MaxRetries, maxInt, effective,
      trackedDelay, trackedFrom]
  · norm_num [cx8, applyOptions, defaultConfig, Exponential, InitialDelay,
      MaxDelay, Multiplier, JitterFactor, MaxRetries, maxInt, iterDelays,
      iterAux, effective, yieldedDelay, jitteredDelay, nextDelay, truncQ]

/-- C8 (amended): for every valid config with `jitter_factor = f > 0` and
draws in `[0,1)`, the n-th yielded delay `d` with pre-jitter base
`b = trackedDelay n` satisfies `b*(1−f) − 1ns < d ≤ b*(1+f)` (the lower
bound can be undershot by less than 1ns by truncation toward zero), and
`d ≤` the effective `max_delay`; `d ≥ 0` holds whenever `f ≤ 1`.  The
base `trackedDelay` is advanced from the pre-jitter value and is by
construction independent of the draws, so jitter never compounds. -/
theorem C8_jitter_bounds (c : Config) (rs : Nat → ℚ) (req n : Nat) (d : Int)
    (hv : ValidConfig c) (hf : 0 < c.jitterFactor)
    (hr : ∀ i, 0 ≤ rs i ∧ rs i < 1)
    (hd : (iterDelays c rs req)[n]? = some d) :
    ((trackedDelay (effective c) n : ℚ) * (1 - c.jitterFactor) - 1 < (d : ℚ)) ∧
    ((d : ℚ) ≤ (trackedDelay (effective c) n : ℚ) * (1 + c.jitterFactor)) ∧
    d ≤ (effective c).maxDelay ∧
    (c.jitterFactor ≤ 1 → 0 ≤ d) := by
  obtain ⟨h1, h2, h3, h4, h5⟩ := hv
  have he1 : 0 ≤ (effective c).initialDelay := by
    rw [effective_initialDelay]; omega
  have he2 : (effective c).initialDelay ≤ (effective c).maxDelay := by
    rw [effective_initialDelay]; exact initialDelay_le_effective_maxDelay c
  have he3 : 1 ≤ (effective c).multiplier := by rw [effective_multiplier]; exact h3
  have hn : n < min c.maxRetries.toNat req := by
    have := (List.getElem?_eq_some.mp hd).1
    rwa [length_iterDelays] at this
  rw [getElem?_iterDelays c rs hn, Option.some.injEq] at hd
  subst hd
  have hb0 : 0 ≤ trackedDelay (effective c) n := (trackedDelay_nonneg he1 he2 he3 n).1
  have hbm : trackedDelay (effective c) n ≤ (effective c).maxDelay :=
    (trackedDelay_nonneg he1 he2 he3 n).2
  have hbounds := yieldedDelay_jitter_bounds (c := effective c)
    (by rw [effective_jitterFactor]; exact hf) hb0 hbm (hr n).1 (hr n).2
  rw [effective_jitterFactor] at hbounds
  refine ⟨hbounds.1, hbounds.2, yieldedDelay_le_max _ _ _, fun hf1 => ?_⟩
  exact yieldedDelay_nonneg (by rw [effective_jitterFactor]; exact hf1) hb0
    (le_trans he1 he2) (hr n).1

/-- The default config has positive jitter (0.1). -/
theorem defaultConfig_jitter_pos : 0 < defaultConfig.jitterFactor := by
  norm_num [defaultConfig, Exponential]

/-- The draw 1/2 lies in the range of `rand.Float64()`. -/
theorem half_in_unit : (0 : ℚ) ≤ 1/2 ∧ (1/2 : ℚ) < 1 := by norm_num

/-- Under the default config with draw 1/2 the jitter term vanishes and
the first yielded delay is exactly 100ms. -/
theorem C8_witness_input :
    (iterDelays defaultConfig (fun _ => (1/2 : ℚ)) 1)[0]? = some 100000000 := by
  norm_num [defaultConfig, Exponential, maxInt, iterDelays, iterAux, effective,
    yieldedDelay, jitteredDelay, nextDelay, truncQ]

/-- Witness for `C8_jitter_bounds`: default config, draw 1/2, first delay. -/
theorem C8_witness : ((100000000 : Int) : ℚ) ≤
    (trackedDelay (effective defaultConfig) 0 : ℚ) * (1 + defaultConfig.jitterFactor) :=
  (C8_jitter_bounds defaultConfig (fun _ => (1/2 : ℚ)) 1 0 100000000
    defaultConfig_valid defaultConfig_jitter_pos (fun _ => half_in_unit)
    C8_witness_input).2.1

/-! ## Claims C3–C6 and C10: the retry driver -/

theorem retryWithContext_no_retries {α : Type} (fn : Nat → α × Option RErr)
    (cancelled : Nat → Bool) (c : Config) (h0 : c.maxRetries = 0) :
    (retryWithContext fn cancelled c).invocations = 1 := by
  have ht : c.maxRetries.toNat = 0 := by omega
  unfold retryWithContext
  split
  · rfl
  · split
    · rfl
    · rw [ht, retryLoop]

/-- An operation that fails recoverably once, then signals a fatal
(`CancelError`) failure on its second invocation. -/
def fnC3 : Nat → Nat × Option RErr :=
  fun j => (j, if j = 0 then some (.plainE 0) else some (.cancelE 1))

/-- C3 (counterexample): `fnC3` returns a fatal error on its 2nd
invocation (`j = 2`), but with `MaxRetries(0)` the driver performs exactly
1 invocation and returns the first recoverable error, not the fatal one —
so "exactly j invocations … regardless of max_retries" fails when the
j-th invocation is never reached. -/
theorem C3_counterexample :
    (fnC3 1).2 = some (.cancelE 1) ∧ isCancelError (.cancelE 1) = true ∧
    retryWithContext fnC3 (fun _ => false) (applyOptions [MaxRetries 0]) =
      ⟨0, some (.plainE 0), 1, 0⟩ := by
  refine ⟨rfl, rfl, ?_⟩
  have ht : (applyOptions [MaxRetries 0]).maxRetries.toNat = 0 := by
    simp [applyOptions, defaultConfig, Exponential, MaxRetries]
  simp [retryWithContext, fnC3, isCancelError, ht, retryLoop]

/-- C3 (amended): if the operation's invocations `0 … m−1` fail
recoverably and invocation `m` (the claim's attempt `j = m+1`, 1-indexed)
returns a `CancelError`, and the fatal attempt is actually reached
(`m ≤ max_retries`), then absent cancellation the driver performs exactly
`m+1` invocations, consumes exactly `m` delays (none when `j = 1`), and
returns the fatal error — for any larger `max_retries`. -/
theorem C3_fatal_stops {α : Type} (c : Config) (fn : Nat → α × Option RErr)
    (cancelled : Nat → Bool) (m : Nat) (e : RErr)
    (hreach : (m : Int) ≤ c.maxRetries)
    (hrec : ∀ j, j < m → recoverableErr (fn j).2 = true)
    (hfatal : (fn m).2 = some e) (hcan : isCancelError e = true)
    (hc : ∀ j, cancelled j = false) :
    retryWithContext fn cancelled c = ⟨(fn m).1, some e, m + 1, m⟩ := by
  cases m with
  | zero =>
    rw [retryWithContext_first_result cancelled c (by rw [hfatal]; simpa [stopsOp]),
      hfatal]
  | succ s =>
    obtain ⟨k, hk⟩ := recoverableErr_elim (hrec 0 (Nat.succ_pos s))
    rw [retryWithContext_enters_loop cancelled c hk]
    rw [retryLoop_reaches_stop fn cancelled (s + 1)
      (by rw [hfatal]; simpa [stopsOp]) c.maxRetries.toNat 0 (fn 0).1 (.plainE k)
      (fun j h1 h2 => hrec j h2) (fun j _ _ => hc j) (Nat.succ_pos s) (by omega),
      hfatal]

/-- Witness for `C3_fatal_stops`: fatal on the 2nd invocation with
`MaxRetries(3)`. -/
theorem C3_witness :
    retryWithContext (fun j => (j, if j = 0 then some (.plainE 5) else some (.cancelE 7)))
      (fun _ => false) (applyOptions [MaxRetries 3]) = ⟨1, some (.cancelE 7), 2, 1⟩ :=
  C3_fatal_stops (applyOptions [MaxRetries 3])
    (fun j => (j, if j = 0 then some (.plainE 5) else some (.cancelE 7)))
    (fun _ => false) 1 (.cancelE 7)
    (by simp [applyOptions, defaultConfig, Exponential, MaxRetries])
    (fun j hj => by
      have hj0 : j = 0 := by omega
      subst hj0; rfl)
    rfl rfl (fun _ => rfl)

/-- C4: if every invocation fails recoverably and `max_retries = n`, the
driver (absent cancellation) performs exactly `n+1` invocations and
returns the error produced by the last one. -/
theorem C4_exhaustion {α : Type} (c : Config) (fn : Nat → α × Option RErr)
    (cancelled : Nat → Bool) (n : Nat) (hmr : c.maxRetries = (n : Int))
    (hrec : ∀ j, recoverableErr (fn j).2 = true)
    (hc : ∀ j, cancelled j = false) :
    retryWithContext fn cancelled c = ⟨(fn n).1, (fn n).2, n + 1, n⟩ := by
  obtain ⟨k, hk⟩ := recoverableErr_elim (hrec 0)
  rw [retryWithContext_enters_loop cancelled c hk]
  have htn : c.maxRetries.toNat = n := by omega
  cases n with
  | zero =>
    rw [htn, retryLoop, hk]
  | succ s =>
    rw [htn, retryLoop_all_recoverable fn cancelled hrec hc s 0 (fn 0).1 (.plainE k)]
    have hi : 0 + s + 1 = s + 1 := by omega
    have hi2 : 0 + s + 2 = s + 1 + 1 := by omega
    rw [hi, hi2]

/-- Witness for `C4_exhaustion`: always-failing operation, `MaxRetries(3)`. -/
theorem C4_witness :
    retryWithContext (fun j => (j, some (.plainE j))) (fun _ => false)
      (applyOptions [MaxRetries 3]) = ⟨3, some (.plainE 3), 4, 3⟩ :=
  C4_exhaustion (applyOptions [MaxRetries 3]) (fun j => (j, some (.plainE j)))
    (fun _ => false) 3
    (by simp [applyOptions, defaultConfig, Exponential, MaxRetries])
    (fun _ => rfl) (fun _ => rfl)

/-- C5: if invocations `0 … k−1` fail recoverably and invocation `k`
succeeds, and `k ≤ max_retries`, the driver (absent cancellation)
performs exactly `k+1` invocations, consumes exactly `k` delays from the
generator, and returns the success value with no error; moreover the
first invocation precedes any generator consultation, so with
`max_retries = 0` every operation still gets exactly one invocation. -/
theorem C5_success_after_k {α : Type} (c : Config) (fn : Nat → α × Option RErr)
    (cancelled : Nat → Bool) (k : Nat) (hmr : (k : Int) ≤ c.maxRetries)
    (hrec : ∀ j, j < k → recoverableErr (fn j).2 = true)
    (hsucc : (fn k).2 = none) (hc : ∀ j, cancelled j = false) :
    retryWithContext fn cancelled c = ⟨(fn k).1, none, k + 1, k⟩ ∧
    (∀ (c' : Config) (fn' : Nat → α × Option RErr) (cancelled' : Nat → Bool),
      c'.maxRetries = 0 → (retryWithContext fn' cancelled' c').invocations = 1) := by
  refine ⟨?_, fun c' fn' cancelled' h0 => retryWithContext_no_retries fn' cancelled' c' h0⟩
  cases k with
  | zero =>
    rw [retryWithContext_first_result cancelled c (by rw [hsucc]; rfl), hsucc]
  | succ s =>
    obtain ⟨k0, hk0⟩ := recoverableErr_elim (hrec 0 (Nat.succ_pos s))
    rw [retryWithContext_enters_loop cancelled c hk0]
    rw [retryLoop_reaches_stop fn cancelled (s + 1) (by rw [hsucc]; rfl)
      c.maxRetries.toNat 0 (fn 0).1 (.plainE k0)
      (fun j h1 h2 => hrec j h2) (fun j _ _ => hc j) (Nat.succ_pos s) (by omega),
      hsucc]

/-- Witness for `C5_success_after_k`: two recoverable failures then
success, with `MaxRetries(5)`. -/
theorem C5_witness :
    retryWithContext (fun j => if j < 2 then (j, some (.plainE j)) else (j, none))
      (fun _ => false) (applyOptions [MaxRetries 5]) = ⟨2, none, 3, 2⟩ :=
  (C5_success_after_k (applyOptions [MaxRetries 5])
    (fun j => if j < 2 then (j, some (.plainE j)) else (j, none))
    (fun _ => false) 2
    (by simp [applyOptions, defaultConfig, Exponential, MaxRetries])
    (fun j hj => by simp [hj, recoverableErr])
    rfl (fun _ => rfl)).1

/-- C6: if the operation keeps failing recoverably and the `select` at
wait step `t` observes `ctx.Done()` first (either because the context was
already cancelled before the wait started or because it fired during the
wait) while no earlier wait was cancelled, the driver stops with exactly
the `t+1` invocations already performed — no further invocation — and
returns `ctx.Err()` as the error, never a previously recorded operation
error. -/
theorem C6_cancellation {α : Type} (c : Config) (fn : Nat → α × Option RErr)
    (cancelled : Nat → Bool) (t : Nat) (ht : (t : Int) < c.maxRetries)
    (hrec : ∀ j, j ≤ t → recoverableErr (fn j).2 = true)
    (hcf : ∀ j, j < t → cancelled j = false) (hct : cancelled t = true) :
    retryWithContext fn cancelled c = ⟨(fn t).1, some .ctxE, t + 1, t + 1⟩ := by
  obtain ⟨k, hk⟩ := recoverableErr_elim (hrec 0 (Nat.zero_le t))
  rw [retryWithContext_enters_loop cancelled c hk]
  exact retryLoop_reaches_cancel fn cancelled t hct c.maxRetries.toNat 0
    (fn 0).1 (.plainE k) rfl (fun j _ h2 => hrec j h2) (fun j _ h2 => hcf j h2)
    (Nat.zero_le t) (by omega)

/-- Witness for `C6_cancellation`: cancellation observed at wait step 1. -/
theorem C6_witness :
    retryWithContext (fun j => (j, some (.plainE j))) (fun i => i == 1)
      (applyOptions [MaxRetries 4]) = ⟨1, some .ctxE, 2, 2⟩ :=
  C6_cancellation (applyOptions [MaxRetries 4]) (fun j => (j, some (.plainE j)))
    (fun i => i == 1) 1
    (by simp [applyOptions, defaultConfig, Exponential, MaxRetries])
    (fun _ _ => rfl)
    (fun j hj => by
      have hj0 : j = 0 := by omega
      subst hj0; rfl)
    rfl

/-- C10: the first invocation happens before any context check — the
invocation count is at least 1 for every cancellation behaviour
(including a context already cancelled or expired at call time), and if
the first invocation returns a nil error the driver returns its value
with a nil error identically for every cancellation behaviour and config:
the context is never consulted. -/
theorem C10_first_invocation {α : Type} (c : Config) (fn : Nat → α × Option RErr)
    (cancelled : Nat → Bool) :
    1 ≤ (retryWithContext fn cancelled c).invocations ∧
    ((fn 0).2 = none →
      ∀ (cancelled' : Nat → Bool) (c' : Config),
        retryWithContext fn cancelled' c' = ⟨(fn 0).1, none, 1, 0⟩) := by
  refine ⟨retryWithContext_invocations_pos fn cancelled c, fun h0 cancelled' c' => ?_⟩
  rw [retryWithContext_first_result cancelled' c' (by rw [h0]; rfl), h0]

/-- Witness for `C10_first_invocation`: immediately-successful operation
run under an always-cancelled context. -/
theorem C10_witness :
    retryWithContext (fun _ => (42, (none : Option RErr))) (fun _ => true)
      (applyOptions []) = ⟨42, none, 1, 0⟩ :=
  ((C10_first_invocation (applyOptions []) (fun _ => (42, (none : Option RErr)))
    (fun _ => true)).2 rfl) (fun _ => true) (applyOptions [])

end Backoff
